import Mathlib

/-!
Shallow embedding of `src/scrapedocs.py` (a documentation-site crawler that
converts pages to Markdown, localizes images, and writes one combined file).

URLs are modelled in parsed form (the five components returned by Python's
`urlparse`); `urljoin` follows the resolution algorithm of `urllib.parse.urljoin`
(RFC 3986 merging, without dot-segment normalization, which no claim touches).
External collaborators (the HTTP client, BeautifulSoup selection results, and
the html2text converter) are modelled as oracles passed in as parameters, per
the spec's statement that they are external and assumed correct; everything the
script itself computes is embedded as executable Lean definitions.
-/

namespace ScrapeDocs

/-- Parsed URL, mirroring the components of Python's `urlparse` result
(the `params` component is never used by the script and is omitted). -/
structure Url where
  scheme : String
  netloc : String
  path : String
  query : String
  fragment : String
deriving DecidableEq, Repr

/-- Does the string start with a slash (Python `path[:1] == '/'`). -/
def startsSlash (s : String) : Bool :=
  match s.toList with
  | [] => false
  | c :: _ => c = '/'

/-- Characters of the path up to and including the last slash (empty if
the path holds no slash): the base directory used by relative resolution. -/
def dirChars (l : List Char) : List Char :=
  (l.reverse.dropWhile (fun c => c ≠ '/')).reverse

/-- Merge a base path with a relative reference path, as
`urllib.parse.urljoin` does (without dot-segment handling). -/
def mergePaths (bpath p : String) : String :=
  if bpath = "" then "/" ++ p
  else (dirChars bpath.toList).asString ++ p

/-- The completely empty reference; `urljoin(base, "")` returns the base
unchanged (Python's `if not url: return base` shortcut). -/
def emptyUrl : Url := ⟨"", "", "", "", ""⟩

/-- Embedding of `urllib.parse.urljoin` on parsed URLs: resolve `ref`
against `base`. -/
def urljoin (base ref : Url) : Url :=
  if ref = emptyUrl then base
  else if ref.scheme ≠ "" ∧ ref.scheme ≠ base.scheme then ref
  else if ref.netloc ≠ "" then
    ⟨base.scheme, ref.netloc, ref.path, ref.query, ref.fragment⟩
  else if ref.path = "" then
    ⟨base.scheme, base.netloc, base.path,
      (if ref.query = "" then base.query else ref.query), ref.fragment⟩
  else if startsSlash ref.path then
    ⟨base.scheme, base.netloc, ref.path, ref.query, ref.fragment⟩
  else
    ⟨base.scheme, base.netloc, mergePaths base.path ref.path, ref.query, ref.fragment⟩

/-- Embedding of the script's URL canonicalization
`urljoin(url, urlparse(url).path)` (source line 162 and 193): intended to
strip the fragment; note that when the path is empty the empty reference
makes `urljoin` return the URL unchanged, query and fragment included. -/
def base_url_only (u : Url) : Url := urljoin u ⟨"", "", u.path, "", ""⟩

/-- Serialization of a parsed URL back to its string form
(`urllib.parse.urlunparse` for the simple shapes the script produces). -/
def urlToString (u : Url) : String :=
  (if u.scheme = "" then "" else u.scheme ++ ":")
    ++ (if u.netloc = "" then "" else "//" ++ u.netloc)
    ++ u.path
    ++ (if u.query = "" then "" else "?" ++ u.query)
    ++ (if u.fragment = "" then "" else "#" ++ u.fragment)

/-- Embedding of `is_valid` (source lines 50-53): the URL has both a netloc
and a scheme.  (The script defines this helper but never calls it.) -/
def is_valid (u : Url) : Bool :=
  u.netloc != "" && u.scheme != ""

/-- The denylisted non-page extensions (source line 64). -/
def nonPageExtensions : List String :=
  [".png", ".jpg", ".jpeg", ".gif", ".css", ".js", ".xml", ".rss", ".pdf", ".zip"]

/-- Python `str.endswith`. -/
def strEndsWith (s suffix : String) : Bool :=
  suffix.toList.isSuffixOf s.toList

/-- Embedding of `is_internal_link` (source lines 55-67): same netloc as the
configured base URL, and the path does not end in a denylisted extension. -/
def is_internal_link (base u : Url) : Bool :=
  if u.netloc != base.netloc then false
  else if nonPageExtensions.any (fun e => strEndsWith u.path e) then false
  else true

/-! MD5 (the behavior of `hashlib.md5(...).hexdigest()` consumed by the
script), implemented over `Nat` with explicit `% 2^32`, by structural
recursion so the kernel can evaluate it. -/

/-- All-ones 32-bit mask. -/
def mask32 : Nat := 4294967295

/-- Bitwise AND of the low `fuel` bits. -/
def bitAndF : Nat → Nat → Nat → Nat
  | 0, _, _ => 0
  | f + 1, a, b => (a % 2) * (b % 2) + 2 * bitAndF f (a / 2) (b / 2)

/-- Bitwise OR of the low `fuel` bits. -/
def bitOrF : Nat → Nat → Nat → Nat
  | 0, _, _ => 0
  | f + 1, a, b => (a % 2 + b % 2 - (a % 2) * (b % 2)) + 2 * bitOrF f (a / 2) (b / 2)

/-- Bitwise XOR of the low `fuel` bits. -/
def bitXorF : Nat → Nat → Nat → Nat
  | 0, _, _ => 0
  | f + 1, a, b => (a % 2 + b % 2) % 2 + 2 * bitXorF f (a / 2) (b / 2)

/-- 32-bit AND. -/
def and32 (a b : Nat) : Nat := bitAndF 32 a b

/-- 32-bit OR. -/
def or32 (a b : Nat) : Nat := bitOrF 32 a b

/-- 32-bit XOR. -/
def xor32 (a b : Nat) : Nat := bitXorF 32 a b

/-- 32-bit complement. -/
def not32 (a : Nat) : Nat := mask32 - a % 4294967296

/-- 32-bit left rotation by `c` (for `0 < c < 32`, on `x < 2^32`). -/
def rotl32 (x c : Nat) : Nat :=
  (x * 2 ^ c) % 4294967296 + x / 2 ^ (32 - c)

/-- The 64 MD5 sine-derived constants. -/
def md5K : List Nat :=
  [0xd76aa478, 0xe8c7b756, 0x242070db, 0xc1bdceee,
   0xf57c0faf, 0x4787c62a, 0xa8304613, 0xfd469501,
   0x698098d8, 0x8b44f7af, 0xffff5bb1, 0x895cd7be,
   0x6b901122, 0xfd987193, 0xa679438e, 0x49b40821,
   0xf61e2562, 0xc040b340, 0x265e5a51, 0xe9b6c7aa,
   0xd62f105d, 0x02441453, 0xd8a1e681, 0xe7d3fbc8,
   0x21e1cde6, 0xc33707d6, 0xf4d50d87, 0x455a14ed,
   0xa9e3e905, 0xfcefa3f8, 0x676f02d9, 0x8d2a4c8a,
   0xfffa3942, 0x8771f681, 0x6d9d6122, 0xfde5380c,
   0xa4beea44, 0x4bdecfa9, 0xf6bb4b60, 0xbebfbc70,
   0x289b7ec6, 0xeaa127fa, 0xd4ef3085, 0x04881d05,
   0xd9d4d039, 0xe6db99e5, 0x1fa27cf8, 0xc4ac5665,
   0xf4292244, 0x432aff97, 0xab9423a7, 0xfc93a039,
   0x655b59c3, 0x8f0ccc92, 0xffeff47d, 0x85845dd1,
   0x6fa87e4f, 0xfe2ce6e0, 0xa3014314, 0x4e0811a1,
   0xf7537e82, 0xbd3af235, 0x2ad7d2bb, 0xeb86d391]

/-- The 64 MD5 per-round rotation amounts. -/
def md5S : List Nat :=
  [7, 12, 17, 22, 7, 12, 17, 22, 7, 12, 17, 22, 7, 12, 17, 22,
   5, 9, 14, 20, 5, 9, 14, 20, 5, 9, 14, 20, 5, 9, 14, 20,
   4, 11, 16, 23, 4, 11, 16, 23, 4, 11, 16, 23, 4, 11, 16, 23,
   6, 10, 15, 21, 6, 10, 15, 21, 6, 10, 15, 21, 6, 10, 15, 21]

/-- The MD5 round function for round `i`. -/
def md5F (i b c d : Nat) : Nat :=
  if i < 16 then or32 (and32 b c) (and32 (not32 b) d)
  else if i < 32 then or32 (and32 d b) (and32 (not32 d) c)
  else if i < 48 then xor32 (xor32 b c) d
  else xor32 c (or32 b (not32 d))

/-- The MD5 message-word index for round `i`. -/
def md5G (i : Nat) : Nat :=
  if i < 16 then i
  else if i < 32 then (5 * i + 1) % 16
  else if i < 48 then (3 * i + 5) % 16
  else (7 * i) % 16

/-- The 64 MD5 rounds over one 16-word chunk `m`. -/
def md5Loop (m : List Nat) : Nat → Nat → Nat × Nat × Nat × Nat → Nat × Nat × Nat × Nat
  | 0, _, st => st
  | fuel + 1, i, (a, b, c, d) =>
    let f := (md5F i b c d + a + md5K.getD i 0 + m.getD (md5G i) 0) % 4294967296
    let b2 := (b + rotl32 f (md5S.getD i 0)) % 4294967296
    md5Loop m fuel (i + 1) (d, b2, b, c)

/-- Process one 16-word chunk, updating the running MD5 state. -/
def md5Chunk (st : Nat × Nat × Nat × Nat) (m : List Nat) : Nat × Nat × Nat × Nat :=
  let (a0, b0, c0, d0) := st
  let (a, b, c, d) := md5Loop m 64 0 (a0, b0, c0, d0)
  ((a0 + a) % 4294967296, (b0 + b) % 4294967296,
   (c0 + c) % 4294967296, (d0 + d) % 4294967296)

/-- Little-endian 32-bit word from up to four bytes. -/
def wordLE (b : List Nat) : Nat :=
  b.getD 0 0 + 256 * (b.getD 1 0 + 256 * (b.getD 2 0 + 256 * b.getD 3 0))

/-- Split `fuel` groups of four bytes into little-endian words. -/
def chunkWords : Nat → List Nat → List Nat
  | 0, _ => []
  | f + 1, bytes => wordLE (bytes.take 4) :: chunkWords f (bytes.drop 4)

/-- Split a padded byte string into 16-word chunks (fuel-bounded). -/
def toChunks : Nat → List Nat → List (List Nat)
  | 0, _ => []
  | f + 1, bytes =>
    if bytes = [] then [] else chunkWords 16 (bytes.take 64) :: toChunks f (bytes.drop 64)

/-- Little-endian byte expansion (`fuel` bytes) of a number. -/
def lenBytesLE : Nat → Nat → List Nat
  | 0, _ => []
  | f + 1, n => n % 256 :: lenBytesLE f (n / 256)

/-- MD5 padding: `0x80`, zeros to 56 mod 64, then the 64-bit little-endian
bit length. -/
def md5Pad (msg : List Nat) : List Nat :=
  let len := msg.length
  let padZeros := (120 - (len + 1) % 64) % 64
  msg ++ 128 :: List.replicate padZeros 0
      ++ lenBytesLE 8 ((8 * len) % 18446744073709551616)

/-- The four MD5 state words of a byte message. -/
def md5Words (msg : List Nat) : Nat × Nat × Nat × Nat :=
  let padded := md5Pad msg
  (toChunks padded.length padded).foldl md5Chunk
    (0x67452301, 0xefcdab89, 0x98badcfe, 0x10325476)

/-- The four bytes of a 32-bit word, little-endian. -/
def wordBytesLE (w : Nat) : List Nat :=
  [w % 256, w / 256 % 256, w / 65536 % 256, w / 16777216 % 256]

/-- Lowercase hex digit. -/
def hexDigitChar (n : Nat) : Char :=
  "0123456789abcdef".toList.getD n '0'

/-- Two hex digits of one byte. -/
def byteHex (b : Nat) : List Char :=
  [hexDigitChar (b / 16), hexDigitChar (b % 16)]

/-- Hex digest of the MD5 of a byte message. -/
def md5BytesHex (msg : List Nat) : String :=
  let (a, b, c, d) := md5Words msg
  (((wordBytesLE a ++ wordBytesLE b ++ wordBytesLE c ++ wordBytesLE d).map byteHex).flatten).asString

/-- UTF-8 encoding of one character (`str.encode('utf-8')` per character). -/
def utf8Char (c : Char) : List Nat :=
  let n := c.toNat
  if n < 128 then [n]
  else if n < 2048 then [192 + n / 64, 128 + n % 64]
  else if n < 65536 then [224 + n / 4096, 128 + n / 64 % 64, 128 + n % 64]
  else [240 + n / 262144, 128 + n / 4096 % 64, 128 + n / 64 % 64, 128 + n % 64]

/-- UTF-8 bytes of a string. -/
def strUtf8 (s : String) : List Nat := (s.toList.map utf8Char).flatten

/-- Embedding of `hashlib.md5(s.encode('utf-8')).hexdigest()`. -/
def md5hex (s : String) : String := md5BytesHex (strUtf8 s)

/-! Image materialization (`get_markdown_content`, source lines 95-121). -/

/-- Index of the last occurrence of `c`, scanning with an accumulator. -/
def lastIdxAux (c : Char) : List Char → Nat → Option Nat → Option Nat
  | [], _, acc => acc
  | x :: rest, i, acc => lastIdxAux c rest (i + 1) (if x = c then some i else acc)

/-- Index of the last occurrence of a character in a list, if any. -/
def lastIdx (c : Char) (l : List Char) : Option Nat := lastIdxAux c l 0 none

/-- Extension component of `os.path.splitext` (posix): the suffix from the
last dot of the basename, provided some earlier basename character is not a
dot (so dotfiles have no extension). -/
def splitextExt (p : String) : String :=
  let cs := p.toList
  let sepPlus := match lastIdx '/' cs with | some i => i + 1 | none => 0
  match lastIdx '.' cs with
  | none => ""
  | some dot =>
    if sepPlus ≤ dot ∧ ((cs.drop sepPlus).take (dot - sepPlus)).any (fun c => c ≠ '.')
    then (cs.drop dot).asString else ""

/-- Embedding of the regex substitution at source line 103
(`re.sub` removing every character that is not `[a-zA-Z0-9.]`). -/
def sanitizeExt (e : String) : String :=
  (e.toList.filter (fun c => c.isAlphanum || c = '.')).asString

/-- Two-argument posix `os.path.join`. -/
def pathJoin (a b : String) : String :=
  if startsSlash b then b
  else if a = "" then b
  else if strEndsWith a "/" then a ++ b
  else a ++ "/" ++ b

/-- The cached filename of an absolute image URL (source lines 98-104):
MD5 hex digest of the URL string, then the sanitized path extension,
defaulting to `.png` when the path has none. -/
def imgFilename (imgUrl : Url) : String :=
  let img_hash := md5hex (urlToString imgUrl)
  let ext0 := splitextExt imgUrl.path
  let ext1 := if ext0 = "" then ".png" else ext0
  img_hash ++ sanitizeExt ext1

/-- Outcome of one image HTTP GET (`session.get` at source line 112):
a raised exception, or a response with a status code. -/
inductive ImgResp
  | fail
  | status (code : Nat)

/-- Result of materializing one image reference: the rewritten `src`
attribute, the filesystem (as the list of existing file paths), and the
image URLs for which an HTTP GET was performed. -/
structure ImgStep where
  newSrc : String
  fs : List String
  fetched : List String
deriving DecidableEq, Repr

/-- Embedding of one iteration of the image loop (source lines 95-121):
resolve the `src` against the page URL, compute the hash-named cache path,
download only when the file does not exist (writing it only on status 200,
catching any fetch error), and rewrite `src` to the local relative path. -/
def processImg (imgFetch : String → ImgResp) (output_dir images_dir : String)
    (pageUrl : Url) (fs : List String) (src : Url) : ImgStep :=
  let img_url := urljoin pageUrl src
  let img_filename := imgFilename img_url
  let img_fs_path := pathJoin (pathJoin output_dir images_dir) img_filename
  let img_rel_path := pathJoin images_dir img_filename
  let dl : List String × List String :=
    if img_fs_path ∈ fs then (fs, [])
    else
      match imgFetch (urlToString img_url) with
      | .fail => (fs, [urlToString img_url])
      | .status code =>
        if code = 200 then (img_fs_path :: fs, [urlToString img_url])
        else (fs, [urlToString img_url])
  ⟨img_rel_path, dl.1, dl.2⟩

/-- Accumulated result of the image loop over every `<img>` of the content
region. -/
structure ImgsResult where
  newSrcs : List String
  fs : List String
  fetched : List String
deriving DecidableEq, Repr

/-- The image loop over all `src` attributes, threading the filesystem. -/
def processImgs (imgFetch : String → ImgResp) (output_dir images_dir : String)
    (pageUrl : Url) (fs0 : List String) (srcs : List Url) : ImgsResult :=
  srcs.foldl (fun acc src =>
    let r := processImg imgFetch output_dir images_dir pageUrl acc.fs src
    ⟨acc.newSrcs ++ [r.newSrc], r.fs, acc.fetched ++ r.fetched⟩)
    ⟨[], fs0, []⟩

/-! Content extraction and conversion (`get_markdown_content`,
source lines 69-144). -/

/-- A markup subtree as the script observes it: the `href` attributes of its
`<a>` descendants and the `src` attributes of its `<img>` descendants, in
parsed form. -/
structure Element where
  anchors : List Url
  imgs : List Url
deriving DecidableEq, Repr

/-- The content region after the script's two mutations: hrefs made
absolute, image sources rewritten to local relative paths.  This is what is
handed to the html2text conversion. -/
structure RenderedElement where
  anchors : List Url
  imgs : List String
deriving DecidableEq, Repr

/-- A fetched page as BeautifulSoup presents it to the script: the result of
`select_one` on the configured content selector, the result of
`select_one("body")`, the `<title>` text, and every `<a href>` of the whole
document (used for link discovery at source line 186). -/
structure PageDoc where
  content : Option Element
  body : Option Element
  title : Option String
  docAnchors : List Url

/-- Python whitespace for `str.strip` / regex `\s` (ASCII fragment). -/
def isPySpace (c : Char) : Bool :=
  c = ' ' || c = '\t' || c = '\n' || c = '\r' || c = '\x0b' || c = '\x0c'

/-- Python `str.strip()`. -/
def pyStrip (s : String) : String :=
  ((s.toList.dropWhile isPySpace).reverse.dropWhile isPySpace).reverse.asString

/-- Embedding of the title cleanup (source lines 124-128): default "index",
and when the title holds a `|`, keep the stripped part before the first one. -/
def pageTitle (t0 : Option String) : String :=
  match t0 with
  | none => "index"
  | some t =>
    if t.toList.contains '|' then pyStrip ((t.toList.takeWhile (fun c => c ≠ '|')).asString)
    else t

/-- Result of `get_markdown_content`: the returned value (`None`, or the
Markdown block with the page title), the filesystem after image
materialization, the image URLs fetched, the mutated link and image
attributes of the content region, and whether the selector-miss diagnostic
was printed. -/
structure MdResult where
  out : Option (String × String)
  fs : List String
  fetched : List String
  renderedAnchors : List Url
  renderedImgSrcs : List String
  selectorMiss : Bool

/-- The per-page Markdown block (source line 140): the title heading, the
original-URL line, a separator rule, and the converted content. -/
def pageBlock (title urlStr md : String) : String :=
  "# " ++ title ++ "\n\n[Original URL: " ++ urlStr ++ "]\n\n---\n\n" ++ md ++ "\n\n"

/-- Embedding of `get_markdown_content` (source lines 69-144).  The
html2text conversion `h.handle` (with `body_width = 0` and the zero-width
cleanup applied to the serialized region) is an external collaborator and is
passed in as the oracle `htmlToMd` over the mutated content region. -/
def get_markdown_content (htmlToMd : RenderedElement → String)
    (imgFetch : String → ImgResp) (output_dir images_dir : String)
    (url : Url) (doc : PageDoc) (fs : List String) : MdResult :=
  let miss := doc.content.isNone
  match doc.content.orElse (fun _ => doc.body) with
  | none => ⟨none, fs, [], [], [], miss⟩
  | some el =>
    let absAnchors := el.anchors.map (fun a => urljoin url a)
    let r := processImgs imgFetch output_dir images_dir url fs el.imgs
    let title := pageTitle doc.title
    let md := htmlToMd ⟨absAnchors, r.newSrcs⟩
    ⟨some (pageBlock title (urlToString url) md, title), r.fs, r.fetched, absAnchors, r.newSrcs, miss⟩

/-! Table of contents (source lines 205-209) and the crawl loop
(source lines 146-213). -/

/-- ASCII fragment of the regex `\w` class. -/
def isWordChar (c : Char) : Bool := c.isAlphanum || c = '_'

/-- Characters kept by the slug substitution `re.sub(r'[^\w\s-]', '', _)`. -/
def slugKeep (c : Char) : Bool := isWordChar c || isPySpace c || c = '-'

/-- Python `str.lower` (ASCII). -/
def pyLower (s : String) : String := (s.toList.map Char.toLower).asString

/-- Python `str.replace` with single-character pattern and replacement. -/
def pyReplaceChar (pat rep : Char) (s : String) : String :=
  (s.toList.map (fun c => if c = pat then rep else c)).asString

/-- Embedding of the slug computation (source line 208):
`re.sub(r'[^\w\s-]', '', title.lower()).strip().replace(' ', '-')`. -/
def slug (t : String) : String :=
  pyReplaceChar ' ' '-' (pyStrip (((pyLower t).toList.filter slugKeep).asString))

/-- One table-of-contents line (source line 209). -/
def tocEntry (t : String) : String := "* [" ++ t ++ "](#" ++ slug t ++ ")"

/-- The table-of-contents lines (source lines 206-209). -/
def tocLines (titles : List String) : List String :=
  "# Table of Contents\n" :: titles.map tocEntry

/-- The single output file's contents (source line 213). -/
def outputDocument (titles blocks : List String) : String :=
  String.intercalate "\n" (tocLines titles) ++ "\n\n---\n\n"
    ++ String.intercalate "\n" blocks

/-- Outcome of one page GET (source line 173): a raised
`requests.exceptions.RequestException`, or a response with a status code and
a parsed document. -/
inductive FetchOutcome
  | netErr
  | resp (status : Nat) (doc : PageDoc)

/-- Embedding of `response.raise_for_status()` (source line 174): requests
raises `HTTPError` exactly for client and server error codes, 400-599. -/
def raisesForStatus (status : Nat) : Bool :=
  400 ≤ status && status < 600

/-- The run configuration and the external collaborators: the configured
root URL and directories, the page fetcher, the image fetcher, and the
html2text conversion. -/
structure Env where
  root : Url
  output_dir : String
  images_dir : String
  fetch : Url → FetchOutcome
  imgFetch : String → ImgResp
  htmlToMd : RenderedElement → String

/-- The crawl state: the frontier queue, the visited set, the accumulated
Markdown blocks and titles, the filesystem, and (as an observation of the
run) the canonical URLs for which a page GET was attempted, in order. -/
structure CrawlState where
  queue : List Url
  visited : List Url
  blocks : List String
  titles : List String
  fs : List String
  trace : List Url
deriving DecidableEq, Repr

/-- Embedding of the link-discovery loop (source lines 186-197): each href
is resolved against the configured root URL (not the owning page),
canonicalized, and appended when it is internal and in neither the visited
set nor the queue. -/
def enqueueLinks (root : Url) (visited queue0 : List Url) (hrefs : List Url) : List Url :=
  hrefs.foldl (fun q href =>
    let full_url := urljoin root href
    let full_url_base := base_url_only full_url
    if is_internal_link root full_url_base ∧ full_url_base ∉ visited ∧ full_url_base ∉ q
    then q ++ [full_url_base] else q) queue0

/-- One iteration of the crawl loop (source lines 158-203): pop, skip if the
canonical form is visited, otherwise mark visited, fetch (failures and
4xx/5xx responses are caught and only logged), convert the page, and
enqueue discovered links. -/
def step (E : Env) (s : CrawlState) : CrawlState :=
  match s.queue with
  | [] => s
  | url :: rest =>
    let c := base_url_only url
    if c ∈ s.visited then { s with queue := rest }
    else
      let visited2 := c :: s.visited
      let trace2 := s.trace ++ [c]
      match E.fetch url with
      | .netErr => { s with queue := rest, visited := visited2, trace := trace2 }
      | .resp status doc =>
        if raisesForStatus status then
          { s with queue := rest, visited := visited2, trace := trace2 }
        else
          let r := get_markdown_content E.htmlToMd E.imgFetch E.output_dir E.images_dir c doc s.fs
          let acc := match r.out with
            | some (content, title) => (s.blocks ++ [content], s.titles ++ [title])
            | none => (s.blocks, s.titles)
          ⟨enqueueLinks E.root visited2 rest doc.docAnchors, visited2,
            acc.1, acc.2, r.fs, trace2⟩

/-- The crawl loop, fuel-bounded (the script itself has no bound and simply
loops until the queue is empty; `run` performs `fuel` iterations, each a
no-op once the queue is empty). -/
def run (E : Env) : Nat → CrawlState → CrawlState
  | 0, s => s
  | n + 1, s => run E n (step E s)

/-- Two URLs that differ only by their fragment identifier. -/
def differOnlyFragment (u v : Url) : Prop :=
  u.scheme = v.scheme ∧ u.netloc = v.netloc ∧ u.path = v.path ∧ u.query = v.query
    ∧ u.fragment ≠ v.fragment

instance (u v : Url) : Decidable (differOnlyFragment u v) := by
  unfold differOnlyFragment; infer_instance

/-! Helper lemmas about canonicalization. -/

lemma startsSlash_ne (s : String) (h : startsSlash s = true) : s ≠ "" := by
  intro he
  subst he
  simp [startsSlash] at h

lemma base_url_only_empty_path (u : Url) (h : u.path = "") : base_url_only u = u := by
  simp [base_url_only, urljoin, emptyUrl, h]

lemma base_url_only_abs (u : Url) (h : startsSlash u.path = true) :
    base_url_only u = ⟨u.scheme, u.netloc, u.path, "", ""⟩ := by
  have hne : u.path ≠ "" := startsSlash_ne _ h
  simp [base_url_only, urljoin, emptyUrl, hne, h]

lemma base_url_only_congr (u v : Url) (hp : u.path ≠ "") (h1 : u.scheme = v.scheme)
    (h2 : u.netloc = v.netloc) (h3 : u.path = v.path) :
    base_url_only u = base_url_only v := by
  obtain ⟨us, un, up, uq, uf⟩ := u
  obtain ⟨vs, vn, vp, vq, vf⟩ := v
  simp only at h1 h2 h3 hp
  subst h1; subst h2; subst h3
  unfold base_url_only urljoin
  split_ifs <;> simp_all [emptyUrl]

lemma base_url_only_scheme (u : Url) : (base_url_only u).scheme = u.scheme := by
  unfold base_url_only urljoin
  split_ifs <;> simp_all

lemma base_url_only_netloc (u : Url) : (base_url_only u).netloc = u.netloc := by
  unfold base_url_only urljoin
  split_ifs <;> simp_all

lemma urljoin_scheme_ne (base ref : Url) (h : base.scheme ≠ "") :
    (urljoin base ref).scheme ≠ "" := by
  unfold urljoin
  split_ifs with h1 h2 h3 h4 h5 <;> simp_all

/-! Helper lemmas about the crawl loop. -/

lemma step_skip (E : Env) (s : CrawlState) (url : Url) (rest : List Url)
    (hq : s.queue = url :: rest) (hv : base_url_only url ∈ s.visited) :
    step E s = { s with queue := rest } := by
  obtain ⟨q, v, b, t, f, tr⟩ := s
  simp only at hq
  subst hq
  simp [step, hv]

lemma step_visited_mono (E : Env) (s : CrawlState) :
    ∀ x ∈ s.visited, x ∈ (step E s).visited := by
  obtain ⟨q, v, b, t, f, tr⟩ := s
  cases q with
  | nil => simp [step]
  | cons url rest =>
    intro x hx
    simp only [step]
    split
    · exact hx
    · split
      · exact List.mem_cons_of_mem _ hx
      · split
        · exact List.mem_cons_of_mem _ hx
        · exact List.mem_cons_of_mem _ hx

lemma run_visited_mono (E : Env) (fuel : Nat) (s : CrawlState) :
    ∀ x ∈ s.visited, x ∈ (run E fuel s).visited := by
  induction fuel generalizing s with
  | zero => simp [run]
  | succ n ih =>
    intro x hx
    exact ih (step E s) x (step_visited_mono E s x hx)

lemma step_trace_inv (E : Env) (s : CrawlState)
    (h1 : s.trace.Nodup) (h2 : ∀ x ∈ s.trace, x ∈ s.visited) :
    (step E s).trace.Nodup ∧ ∀ x ∈ (step E s).trace, x ∈ (step E s).visited := by
  obtain ⟨q, v, b, t, f, tr⟩ := s
  simp only at h1 h2
  cases q with
  | nil => exact ⟨h1, h2⟩
  | cons url rest =>
    simp only [step]
    split
    · exact ⟨h1, h2⟩
    · rename_i hv
      have hnotin : base_url_only url ∉ tr := fun hm => hv (h2 _ hm)
      have hnodup : (tr ++ [base_url_only url]).Nodup := by
        simp [List.nodup_append, h1, hnotin]
      have hmem : ∀ x ∈ tr ++ [base_url_only url], x ∈ base_url_only url :: v := by
        intro x hx
        rcases List.mem_append.mp hx with hx | hx
        · exact List.mem_cons_of_mem _ (h2 _ hx)
        · simp at hx
          simp [hx]
      split
      · exact ⟨hnodup, hmem⟩
      · split
        · exact ⟨hnodup, hmem⟩
        · exact ⟨hnodup, hmem⟩

lemma run_trace_inv (E : Env) (fuel : Nat) (s : CrawlState)
    (h1 : s.trace.Nodup) (h2 : ∀ x ∈ s.trace, x ∈ s.visited) :
    (run E fuel s).trace.Nodup := by
  induction fuel generalizing s with
  | zero => exact h1
  | succ n ih =>
    obtain ⟨g1, g2⟩ := step_trace_inv E s h1 h2
    exact ih (step E s) g1 g2

/-! Concrete fixtures used by counterexamples and witnesses. -/

/-- A fetched document with trivial content, a body, and no links. -/
def docT : PageDoc := ⟨some ⟨[], []⟩, some ⟨[], []⟩, some "T", []⟩

/-- A run configuration whose page fetch always succeeds with `docT`. -/
def envA : Env :=
  ⟨⟨"https", "h", "/", "", ""⟩, "output", "images",
    fun _ => .resp 200 docT, fun _ => .fail, fun _ => ""⟩

lemma enqueueLinks_mem (root : Url) (visited : List Url) :
    ∀ (hrefs q0 : List Url) (x : Url),
    x ∈ enqueueLinks root visited q0 hrefs →
    x ∈ q0 ∨ ∃ href ∈ hrefs, x = base_url_only (urljoin root href) := by
  intro hrefs
  induction hrefs with
  | nil => exact fun q0 x hx => Or.inl hx
  | cons h rest ih =>
    intro q0 x hx
    have hx2 : x ∈ enqueueLinks root visited
        (if is_internal_link root (base_url_only (urljoin root h))
            ∧ base_url_only (urljoin root h) ∉ visited
            ∧ base_url_only (urljoin root h) ∉ q0
         then q0 ++ [base_url_only (urljoin root h)] else q0) rest := hx
    rcases ih _ x hx2 with hq1 | ⟨href, hm, he⟩
    · split at hq1
      · rcases List.mem_append.mp hq1 with hq | hq
        · exact Or.inl hq
        · simp at hq
          exact Or.inr ⟨h, List.mem_cons_self _ _, hq⟩
      · exact Or.inl hq1
    · exact Or.inr ⟨href, List.mem_cons_of_mem _ hm, he⟩

/-- C1 counterexample: two URLs with an empty path that differ only by
fragment are NOT merged by the canonicalization (Python's `urljoin` returns
the base unchanged on an empty reference), so the crawl processes and emits
both: the visited set does not hold fragment-stripped URLs here and the
same page is fetched twice. -/
theorem scrape_c1_counterexample :
    differOnlyFragment ⟨"https", "h", "", "", "a"⟩ ⟨"https", "h", "", "", "b"⟩
    ∧ base_url_only ⟨"https", "h", "", "", "a"⟩ ≠ base_url_only ⟨"https", "h", "", "", "b"⟩
    ∧ (run envA 2 ⟨[⟨"https", "h", "", "", "a"⟩, ⟨"https", "h", "", "", "b"⟩],
        [], [], [], [], []⟩).trace
      = [⟨"https", "h", "", "", "a"⟩, ⟨"https", "h", "", "", "b"⟩]
    ∧ (run envA 2 ⟨[⟨"https", "h", "", "", "a"⟩, ⟨"https", "h", "", "", "b"⟩],
        [], [], [], [], []⟩).blocks.length = 2 := by
  decide

/-- C1 (amended): for URLs with a nonempty path, fragment variants share one
canonical form; the visited set only grows over a step and over the whole
run; a popped URL whose canonical form is visited is skipped with no other
state change; and the trace of canonical URLs actually processed never holds
a duplicate (each canonical page is processed at most once).  URLs with an
empty path are canonicalized to themselves, fragment retained. -/
theorem scrape_c1 :
    (∀ u v : Url, u.path ≠ "" → differOnlyFragment u v → base_url_only u = base_url_only v)
    ∧ (∀ (E : Env) (s : CrawlState) (x : Url), x ∈ s.visited → x ∈ (step E s).visited)
    ∧ (∀ (E : Env) (fuel : Nat) (s : CrawlState) (x : Url),
        x ∈ s.visited → x ∈ (run E fuel s).visited)
    ∧ (∀ (E : Env) (s : CrawlState) (url : Url) (rest : List Url),
        s.queue = url :: rest → base_url_only url ∈ s.visited →
        step E s = { s with queue := rest })
    ∧ (∀ (E : Env) (fuel : Nat) (s : CrawlState),
        s.trace.Nodup → (∀ x ∈ s.trace, x ∈ s.visited) → (run E fuel s).trace.Nodup) :=
  ⟨fun u v hp hd => base_url_only_congr u v hp hd.1 hd.2.1 hd.2.2.1,
   step_visited_mono,
   fun E fuel s => run_visited_mono E fuel s,
   step_skip,
   run_trace_inv⟩

/-- C1 witness: the amended theorem applied at concrete inputs. -/
theorem scrape_c1_witness :
    base_url_only ⟨"https", "h", "/p", "q", "a"⟩ = base_url_only ⟨"https", "h", "/p", "q", "b"⟩
    ∧ step envA ⟨[⟨"https", "h", "/p", "", ""⟩], [⟨"https", "h", "/p", "", ""⟩], [], [], [], []⟩
      = { (⟨[⟨"https", "h", "/p", "", ""⟩], [⟨"https", "h", "/p", "", ""⟩],
            [], [], [], []⟩ : CrawlState) with queue := [] }
    ∧ (run envA 3 ⟨[⟨"https", "h", "/", "", ""⟩], [], [], [], [], []⟩).trace.Nodup :=
  ⟨scrape_c1.1 _ _ (by decide) (by decide),
   scrape_c1.2.2.2.1 envA _ _ _ rfl (by decide),
   scrape_c1.2.2.2.2 envA 3 _ (by decide) (by decide)⟩

/-- C9 counterexample: two URLs with the same scheme, host and path that
differ only in their query string are canonicalized to themselves (query
retained) and are therefore distinct crawl identities, because the
canonicalization resolves an empty relative reference when the path is
empty. -/
theorem scrape_c9_counterexample :
    (⟨"https", "h", "", "a=1", ""⟩ : Url).scheme = (⟨"https", "h", "", "a=2", ""⟩ : Url).scheme
    ∧ (⟨"https", "h", "", "a=1", ""⟩ : Url).netloc = (⟨"https", "h", "", "a=2", ""⟩ : Url).netloc
    ∧ (⟨"https", "h", "", "a=1", ""⟩ : Url).path = (⟨"https", "h", "", "a=2", ""⟩ : Url).path
    ∧ base_url_only ⟨"https", "h", "", "a=1", ""⟩ = ⟨"https", "h", "", "a=1", ""⟩
    ∧ base_url_only ⟨"https", "h", "", "a=1", ""⟩ ≠ base_url_only ⟨"https", "h", "", "a=2", ""⟩ := by
  decide

/-- C9 (amended): for URLs whose path is nonempty (absolute, as `urlparse`
produces for URLs with a host), the canonical identity is exactly
scheme + host + path with the query and fragment dropped, so two such URLs
agreeing on those three components are one crawl identity; every URL the
link-discovery loop appends to the frontier is of this canonical form.
When the path is empty, canonicalization returns the URL unchanged, query
and fragment included. -/
theorem scrape_c9 :
    (∀ u : Url, startsSlash u.path = true →
      base_url_only u = ⟨u.scheme, u.netloc, u.path, "", ""⟩)
    ∧ (∀ u v : Url, startsSlash u.path = true → u.scheme = v.scheme →
        u.netloc = v.netloc → u.path = v.path → base_url_only u = base_url_only v)
    ∧ (∀ u : Url, u.path = "" → base_url_only u = u)
    ∧ (∀ (root : Url) (visited q0 hrefs : List Url) (x : Url),
        x ∈ enqueueLinks root visited q0 hrefs →
        x ∈ q0 ∨ ∃ href ∈ hrefs, x = base_url_only (urljoin root href)) :=
  ⟨fun u h => base_url_only_abs u h,
   fun u v h h1 h2 h3 => base_url_only_congr u v (startsSlash_ne _ h) h1 h2 h3,
   base_url_only_empty_path,
   fun root visited q0 hrefs x hx => enqueueLinks_mem root visited hrefs q0 x hx⟩

/-- C2 (confirmed over discovered URLs): a URL discovered by resolving an
href against a root that has a scheme and a host, and then canonicalized, is
classified internal by `is_internal_link` iff it is valid (has scheme and
host), its host equals the root's host exactly, and its path does not end in
a denylisted extension; any URL with a different host is excluded regardless
of path, and any URL whose path ends in a denylisted extension is excluded. -/
theorem scrape_c2 (root href : Url) (hs : root.scheme ≠ "") (hn : root.netloc ≠ "") :
    (is_internal_link root (base_url_only (urljoin root href)) = true ↔
      is_valid (base_url_only (urljoin root href)) = true
      ∧ (base_url_only (urljoin root href)).netloc = root.netloc
      ∧ nonPageExtensions.any
          (fun e => strEndsWith (base_url_only (urljoin root href)).path e) = false)
    ∧ (∀ u : Url, u.netloc ≠ root.netloc → is_internal_link root u = false)
    ∧ (∀ (u : Url) (e : String), e ∈ nonPageExtensions → strEndsWith u.path e = true →
        is_internal_link root u = false) := by
  have hw_scheme : (base_url_only (urljoin root href)).scheme ≠ "" := by
    rw [base_url_only_scheme]
    exact urljoin_scheme_ne root href hs
  refine ⟨?_, ?_, ?_⟩
  · set w := base_url_only (urljoin root href) with hw
    by_cases hnet : w.netloc = root.netloc
    · by_cases hany : nonPageExtensions.any (fun e => strEndsWith w.path e) = true
      · simp [is_internal_link, hnet, hany]
      · have hany2 : nonPageExtensions.any (fun e => strEndsWith w.path e) = false :=
          Bool.eq_false_iff.mpr hany
        simp [is_internal_link, hnet, hany2, is_valid, hn, hw_scheme]
    · have hb : (w.netloc != root.netloc) = true := by
        simpa using hnet
      simp [is_internal_link, hb, hnet]
  · intro u hu
    have hb : (u.netloc != root.netloc) = true := by simpa using hu
    simp [is_internal_link, hb]
  · intro u e he hend
    have hany : nonPageExtensions.any (fun x => strEndsWith u.path x) = true :=
      List.any_eq_true.mpr ⟨e, he, hend⟩
    simp only [is_internal_link]
    split
    · rfl
    · simp [hany]

/-- A root URL with the script's default host. -/
def root0 : Url := ⟨"https", "docs.sl.antimatter.io", "/", "", ""⟩

/-- A root-relative href. -/
def href0 : Url := ⟨"", "", "/guide", "", ""⟩

/-- C2 witness: the theorem applied at concrete root, href, and URLs. -/
theorem scrape_c2_witness :
    (is_internal_link root0 (base_url_only (urljoin root0 href0)) = true ↔
      is_valid (base_url_only (urljoin root0 href0)) = true
      ∧ (base_url_only (urljoin root0 href0)).netloc = root0.netloc
      ∧ nonPageExtensions.any
          (fun e => strEndsWith (base_url_only (urljoin root0 href0)).path e) = false)
    ∧ is_internal_link root0 ⟨"https", "other.example", "/a", "", ""⟩ = false
    ∧ is_internal_link root0 ⟨"https", "docs.sl.antimatter.io", "/logo.png", "", ""⟩ = false :=
  ⟨(scrape_c2 root0 href0 (by decide) (by decide)).1,
   (scrape_c2 root0 href0 (by decide) (by decide)).2.1 _ (by decide),
   (scrape_c2 root0 href0 (by decide) (by decide)).2.2 _ ".png" (by decide) (by decide)⟩

lemma processImg_cached (imgFetch : String → ImgResp) (od idir : String)
    (url : Url) (fs : List String) (src : Url)
    (h : pathJoin (pathJoin od idir) (imgFilename (urljoin url src)) ∈ fs) :
    processImg imgFetch od idir url fs src
      = ⟨pathJoin idir (imgFilename (urljoin url src)), fs, []⟩ := by
  simp [processImg, h]

lemma processImgs_cached_aux (imgFetch : String → ImgResp) (od idir : String) (url : Url) :
    ∀ (srcs : List Url) (a b fs : List String),
    (∀ src ∈ srcs, pathJoin (pathJoin od idir) (imgFilename (urljoin url src)) ∈ fs) →
    (srcs.foldl (fun acc src =>
        let r := processImg imgFetch od idir url acc.fs src
        (⟨acc.newSrcs ++ [r.newSrc], r.fs, acc.fetched ++ r.fetched⟩ : ImgsResult))
      ⟨a, fs, b⟩).fs = fs
    ∧ (srcs.foldl (fun acc src =>
        let r := processImg imgFetch od idir url acc.fs src
        (⟨acc.newSrcs ++ [r.newSrc], r.fs, acc.fetched ++ r.fetched⟩ : ImgsResult))
      ⟨a, fs, b⟩).fetched = b := by
  intro srcs
  induction srcs with
  | nil => exact fun a b fs h => ⟨rfl, rfl⟩
  | cons src rest ih =>
    intro a b fs h
    have hcache := processImg_cached imgFetch od idir url fs src (h src (List.mem_cons_self _ _))
    simp only [List.foldl_cons, hcache]
    have := ih (a ++ [pathJoin idir (imgFilename (urljoin url src))]) (b ++ []) fs
      (fun s hs => h s (List.mem_cons_of_mem _ hs))
    simpa using this

/-- C3 (confirmed): image materialization is idempotent: when the computed
hash-named cache path already exists in the filesystem, the image step
performs no HTTP fetch, leaves the filesystem unchanged, and reuses the
existing file as the rewritten reference; over a whole page (and so over
repeated runs with a pre-populated cache), zero image downloads happen when
every referenced image's cache file exists. -/
theorem scrape_c3 :
    (∀ (imgFetch : String → ImgResp) (od idir : String) (url : Url)
        (fs : List String) (src : Url),
      pathJoin (pathJoin od idir) (imgFilename (urljoin url src)) ∈ fs →
      processImg imgFetch od idir url fs src
        = ⟨pathJoin idir (imgFilename (urljoin url src)), fs, []⟩)
    ∧ (∀ (imgFetch : String → ImgResp) (od idir : String) (url : Url)
        (fs : List String) (srcs : List Url),
      (∀ src ∈ srcs, pathJoin (pathJoin od idir) (imgFilename (urljoin url src)) ∈ fs) →
      (processImgs imgFetch od idir url fs srcs).fetched = []
      ∧ (processImgs imgFetch od idir url fs srcs).fs = fs) :=
  ⟨processImg_cached,
   fun imgFetch od idir url fs srcs h =>
     ⟨(processImgs_cached_aux imgFetch od idir url srcs [] [] fs h).2,
      (processImgs_cached_aux imgFetch od idir url srcs [] [] fs h).1⟩⟩

set_option maxRecDepth 40000 in
/-- C3 witness: a pre-populated cache directory holding the hash-named file
for the one referenced image yields zero downloads and an unchanged
filesystem. -/
theorem scrape_c3_witness :
    (processImgs (fun _ => ImgResp.fail) "output" "images" ⟨"https", "site", "/", "", ""⟩
        ["output/images/053536831fcd2a6118df76019c875d58.png"]
        [⟨"https", "site", "/a.png", "", ""⟩]).fetched = []
    ∧ (processImgs (fun _ => ImgResp.fail) "output" "images" ⟨"https", "site", "/", "", ""⟩
        ["output/images/053536831fcd2a6118df76019c875d58.png"]
        [⟨"https", "site", "/a.png", "", ""⟩]).fs
      = ["output/images/053536831fcd2a6118df76019c875d58.png"] :=
  ⟨(scrape_c3.2 _ _ _ _ _ _ (by decide)).1,
   (scrape_c3.2 _ _ _ _ _ _ (by decide)).2⟩

lemma processImg_newSrc (imgFetch : String → ImgResp) (od idir : String)
    (url : Url) (fs : List String) (src : Url) :
    (processImg imgFetch od idir url fs src).newSrc
      = pathJoin idir (imgFilename (urljoin url src)) := by
  unfold processImg
  dsimp only

set_option maxRecDepth 40000 in
/-- C4 (confirmed): every image reference is resolved to absolute form
against the page URL; the local filename is the MD5 hex digest of that
absolute URL string concatenated with the sanitized original path extension
(defaulting to ".png" when the path has none); the reference is rewritten to
images-dir/filename; in particular an image at https://site/a.png caches as
md5("https://site/a.png") ++ ".png" and the reference becomes the
corresponding relative path. -/
theorem scrape_c4 :
    (∀ (imgFetch : String → ImgResp) (od idir : String) (url : Url)
        (fs : List String) (src : Url),
      (processImg imgFetch od idir url fs src).newSrc
        = pathJoin idir (md5hex (urlToString (urljoin url src))
            ++ sanitizeExt (if splitextExt (urljoin url src).path = "" then ".png"
                else splitextExt (urljoin url src).path)))
    ∧ imgFilename ⟨"https", "site", "/a.png", "", ""⟩
        = "053536831fcd2a6118df76019c875d58" ++ ".png"
    ∧ (processImg (fun _ => ImgResp.status 200) "output" "images"
        ⟨"https", "site", "/", "", ""⟩ [] ⟨"https", "site", "/a.png", "", ""⟩).newSrc
        = "images/053536831fcd2a6118df76019c875d58.png"
    ∧ (processImg (fun _ => ImgResp.status 200) "output" "images"
        ⟨"https", "site", "/", "", ""⟩ [] ⟨"https", "site", "/a.png", "", ""⟩).fs
        = ["output/images/053536831fcd2a6118df76019c875d58.png"] :=
  ⟨fun imgFetch od idir url fs src => processImg_newSrc imgFetch od idir url fs src,
   by decide, by decide, by decide⟩

lemma step_netErr (E : Env) (s : CrawlState) (url : Url) (rest : List Url)
    (hq : s.queue = url :: rest) (hv : base_url_only url ∉ s.visited)
    (hf : E.fetch url = .netErr) :
    step E s = { s with
      queue := rest
      visited := base_url_only url :: s.visited
      trace := s.trace ++ [base_url_only url] } := by
  obtain ⟨q, v, b, t, f, tr⟩ := s
  simp only at hq hv
  subst hq
  simp [step, hv, hf]

lemma step_httpError (E : Env) (s : CrawlState) (url : Url) (rest : List Url)
    (status : Nat) (doc : PageDoc)
    (hq : s.queue = url :: rest) (hv : base_url_only url ∉ s.visited)
    (hf : E.fetch url = .resp status doc) (hr : raisesForStatus status = true) :
    step E s = { s with
      queue := rest
      visited := base_url_only url :: s.visited
      trace := s.trace ++ [base_url_only url] } := by
  obtain ⟨q, v, b, t, f, tr⟩ := s
  simp only at hq hv
  subst hq
  simp [step, hv, hf, hr]

/-- A run configuration whose page fetch returns status 304 with `docT`. -/
def env304 : Env := { envA with fetch := fun _ => FetchOutcome.resp 304 docT }

/-- A run configuration whose page fetch always raises. -/
def envErr : Env := { envA with fetch := fun _ => FetchOutcome.netErr }

/-- A run configuration whose page fetch returns status 500 with `docT`. -/
def env500 : Env := { envA with fetch := fun _ => FetchOutcome.resp 500 docT }

/-- C5 counterexample: a 304 response is a non-2xx HTTP response, yet
`raise_for_status` does not raise for it, so the page is processed and its
Markdown block and title are emitted rather than the fetch being caught on
the logged-and-skipped path. -/
theorem scrape_c5_counterexample :
    raisesForStatus 304 = false
    ∧ ¬(200 ≤ 304 ∧ 304 < 300)
    ∧ (step env304 ⟨[⟨"https", "h", "/p", "", ""⟩], [], [], [], [], []⟩).blocks.length = 1
    ∧ (step env304 ⟨[⟨"https", "h", "/p", "", ""⟩], [], [], [], [], []⟩).titles = ["T"] := by
  decide

/-- C5 (amended): a network/transport failure, or a 4xx/5xx response (the
statuses `raise_for_status` raises for), is caught on the same
logged-and-skipped path: the crawl continues with the next queued URL and no
page output is produced, while the URL is still marked visited (it was
marked before the fetch), so it is never re-attempted; the trace of
attempted page fetches never holds a canonical URL twice.  Non-2xx statuses
outside 4xx/5xx (such as 304) are processed normally. -/
theorem scrape_c5 :
    (∀ (E : Env) (s : CrawlState) (url : Url) (rest : List Url),
      s.queue = url :: rest → base_url_only url ∉ s.visited → E.fetch url = .netErr →
      step E s = { s with
        queue := rest
        visited := base_url_only url :: s.visited
        trace := s.trace ++ [base_url_only url] })
    ∧ (∀ (E : Env) (s : CrawlState) (url : Url) (rest : List Url) (status : Nat)
        (doc : PageDoc),
      s.queue = url :: rest → base_url_only url ∉ s.visited →
      E.fetch url = .resp status doc → raisesForStatus status = true →
      step E s = { s with
        queue := rest
        visited := base_url_only url :: s.visited
        trace := s.trace ++ [base_url_only url] })
    ∧ (∀ (E : Env) (fuel : Nat) (s : CrawlState),
        s.trace.Nodup → (∀ x ∈ s.trace, x ∈ s.visited) → (run E fuel s).trace.Nodup) :=
  ⟨step_netErr, step_httpError, run_trace_inv⟩

/-- C5 witness: the amended theorem applied at concrete inputs. -/
theorem scrape_c5_witness :
    step envErr ⟨[⟨"https", "h", "/p", "", ""⟩], [], [], [], [], []⟩
      = { (⟨[⟨"https", "h", "/p", "", ""⟩], [], [], [], [], []⟩ : CrawlState) with
          queue := []
          visited := base_url_only ⟨"https", "h", "/p", "", ""⟩ :: []
          trace := [] ++ [base_url_only ⟨"https", "h", "/p", "", ""⟩] }
    ∧ step env500 ⟨[⟨"https", "h", "/p", "", ""⟩], [], [], [], [], []⟩
      = { (⟨[⟨"https", "h", "/p", "", ""⟩], [], [], [], [], []⟩ : CrawlState) with
          queue := []
          visited := base_url_only ⟨"https", "h", "/p", "", ""⟩ :: []
          trace := [] ++ [base_url_only ⟨"https", "h", "/p", "", ""⟩] }
    ∧ (run envErr 2 ⟨[⟨"https", "h", "/p", "", ""⟩], [], [], [], [], []⟩).trace.Nodup :=
  ⟨scrape_c5.1 envErr _ _ _ rfl (by decide) rfl,
   scrape_c5.2.1 env500 _ _ _ 500 docT rfl (by decide) rfl (by decide),
   scrape_c5.2.2 envErr 2 _ (by decide) (by decide)⟩

lemma get_markdown_out_isSome (htmlToMd : RenderedElement → String)
    (imgFetch : String → ImgResp) (od idir : String) (url : Url) (doc : PageDoc)
    (fs : List String) (el : Element) (h : doc.content = some el) :
    (get_markdown_content htmlToMd imgFetch od idir url doc fs).out.isSome = true := by
  simp [get_markdown_content, h, Option.orElse]

/-- C6 (confirmed): when an image is not cached, a raised fetch error or any
non-200 status leaves the filesystem unchanged (only status 200 writes the
file), yet the image reference is still rewritten to the local relative path
and the page's Markdown block is still produced. -/
theorem scrape_c6 :
    (∀ (imgFetch : String → ImgResp) (od idir : String) (url : Url)
        (fs : List String) (src : Url),
      pathJoin (pathJoin od idir) (imgFilename (urljoin url src)) ∉ fs →
      imgFetch (urlToString (urljoin url src)) = ImgResp.fail →
      processImg imgFetch od idir url fs src
        = ⟨pathJoin idir (imgFilename (urljoin url src)), fs,
            [urlToString (urljoin url src)]⟩)
    ∧ (∀ (imgFetch : String → ImgResp) (od idir : String) (url : Url)
        (fs : List String) (src : Url) (code : Nat),
      pathJoin (pathJoin od idir) (imgFilename (urljoin url src)) ∉ fs →
      imgFetch (urlToString (urljoin url src)) = ImgResp.status code → code ≠ 200 →
      processImg imgFetch od idir url fs src
        = ⟨pathJoin idir (imgFilename (urljoin url src)), fs,
            [urlToString (urljoin url src)]⟩)
    ∧ (∀ (imgFetch : String → ImgResp) (od idir : String) (url : Url)
        (fs : List String) (src : Url),
      pathJoin (pathJoin od idir) (imgFilename (urljoin url src)) ∉ fs →
      imgFetch (urlToString (urljoin url src)) = ImgResp.status 200 →
      processImg imgFetch od idir url fs src
        = ⟨pathJoin idir (imgFilename (urljoin url src)),
            pathJoin (pathJoin od idir) (imgFilename (urljoin url src)) :: fs,
            [urlToString (urljoin url src)]⟩)
    ∧ (∀ (htmlToMd : RenderedElement → String) (imgFetch : String → ImgResp)
        (od idir : String) (url : Url) (doc : PageDoc) (fs : List String) (el : Element),
        doc.content = some el →
        (get_markdown_content htmlToMd imgFetch od idir url doc fs).out.isSome = true) := by
  refine ⟨?_, ?_, ?_, get_markdown_out_isSome⟩
  · intro imgFetch od idir url fs src hfs hf
    simp [processImg, hfs, hf]
  · intro imgFetch od idir url fs src code hfs hf hcode
    simp [processImg, hfs, hf, hcode]
  · intro imgFetch od idir url fs src hfs hf
    simp [processImg, hfs, hf]

/-- C6 witness: the theorem applied at concrete inputs. -/
theorem scrape_c6_witness :
    processImg (fun _ => ImgResp.fail) "output" "images" ⟨"https", "site", "/", "", ""⟩
        [] ⟨"", "", "a.png", "", ""⟩
      = ⟨pathJoin "images"
            (imgFilename (urljoin ⟨"https", "site", "/", "", ""⟩ ⟨"", "", "a.png", "", ""⟩)),
          [],
          [urlToString (urljoin ⟨"https", "site", "/", "", ""⟩ ⟨"", "", "a.png", "", ""⟩)]⟩
    ∧ processImg (fun _ => ImgResp.status 404) "output" "images"
        ⟨"https", "site", "/", "", ""⟩ [] ⟨"", "", "a.png", "", ""⟩
      = ⟨pathJoin "images"
            (imgFilename (urljoin ⟨"https", "site", "/", "", ""⟩ ⟨"", "", "a.png", "", ""⟩)),
          [],
          [urlToString (urljoin ⟨"https", "site", "/", "", ""⟩ ⟨"", "", "a.png", "", ""⟩)]⟩
    ∧ (get_markdown_content (fun _ => "") (fun _ => ImgResp.fail) "output" "images"
        ⟨"https", "site", "/", "", ""⟩
        ⟨some ⟨[], [⟨"", "", "a.png", "", ""⟩]⟩, none, some "T", []⟩ []).out.isSome = true :=
  ⟨scrape_c6.1 _ _ _ _ _ _ (by decide) rfl,
   scrape_c6.2.1 _ _ _ _ _ _ 404 (by decide) rfl (by decide),
   scrape_c6.2.2.2 _ _ _ _ _ _ _ _ rfl⟩

lemma pageBlock_ne_empty (t u m : String) : pageBlock t u m ≠ "" := by
  intro h
  have h2 := congrArg String.length h
  simp only [pageBlock, String.length_append] at h2
  have l1 : ("# " : String).length = 2 := rfl
  have l2 : ("\n\n[Original URL: " : String).length = 17 := rfl
  have l3 : ("]\n\n---\n\n" : String).length = 8 := rfl
  have l4 : ("\n\n" : String).length = 2 := rfl
  have l5 : ("" : String).length = 0 := rfl
  omega

/-- C7 counterexample: a fetched page on which the selector matches nothing
and which has no body element either produces NO Markdown output at all
(`get_markdown_content` returns nothing), contradicting the claim that every
selector-miss page still yields output. -/
theorem scrape_c7_counterexample :
    (⟨none, none, some "T", []⟩ : PageDoc).content = none
    ∧ (get_markdown_content (fun _ => "") (fun _ => ImgResp.fail) "output" "images"
        ⟨"https", "h", "/p", "", ""⟩ ⟨none, none, some "T", []⟩ []).selectorMiss = true
    ∧ (get_markdown_content (fun _ => "") (fun _ => ImgResp.fail) "output" "images"
        ⟨"https", "h", "/p", "", ""⟩ ⟨none, none, some "T", []⟩ []).out = none := by
  decide

/-- C7 (amended): when the configured content selector matches nothing but
the document has a body element, extraction falls back to the body, the
selector-miss diagnostic is emitted, and the page produces a Markdown block
holding the title heading, original-URL line and separator, which is never
empty; when even the body is absent the page yields no output. -/
theorem scrape_c7 (htmlToMd : RenderedElement → String) (imgFetch : String → ImgResp)
    (od idir : String) (url : Url) (doc : PageDoc) (fs : List String) (el : Element)
    (h1 : doc.content = none) (h2 : doc.body = some el) :
    (get_markdown_content htmlToMd imgFetch od idir url doc fs).selectorMiss = true
    ∧ (get_markdown_content htmlToMd imgFetch od idir url doc fs).out
      = some (pageBlock (pageTitle doc.title) (urlToString url)
          (htmlToMd ⟨el.anchors.map (fun a => urljoin url a),
            (processImgs imgFetch od idir url fs el.imgs).newSrcs⟩),
          pageTitle doc.title)
    ∧ (∀ b t, (get_markdown_content htmlToMd imgFetch od idir url doc fs).out
        = some (b, t) → b ≠ "") := by
  have hout : (get_markdown_content htmlToMd imgFetch od idir url doc fs).out
      = some (pageBlock (pageTitle doc.title) (urlToString url)
          (htmlToMd ⟨el.anchors.map (fun a => urljoin url a),
            (processImgs imgFetch od idir url fs el.imgs).newSrcs⟩),
          pageTitle doc.title) := by
    simp [get_markdown_content, h1, h2, Option.orElse]
  refine ⟨?_, hout, ?_⟩
  · simp [get_markdown_content, h1, h2, Option.orElse]
  · intro b t hbt
    rw [hout] at hbt
    simp only [Option.some.injEq, Prod.mk.injEq] at hbt
    rw [← hbt.1]
    exact pageBlock_ne_empty _ _ _

/-- A page whose content selector misses but which has a body. -/
def doc7 : PageDoc := ⟨none, some ⟨[], []⟩, some "T", []⟩

/-- The page URL used by the C7 witness. -/
def url7 : Url := ⟨"https", "h", "/p", "", ""⟩

/-- C7 witness: the amended theorem applied at concrete inputs. -/
theorem scrape_c7_witness :
    (get_markdown_content (fun _ => "md") (fun _ => ImgResp.fail) "output" "images"
        url7 doc7 []).selectorMiss = true
    ∧ (get_markdown_content (fun _ => "md") (fun _ => ImgResp.fail) "output" "images"
        url7 doc7 []).out
      = some (pageBlock (pageTitle doc7.title) (urlToString url7)
          ((fun _ => "md") (⟨([] : List Url).map (fun a => urljoin url7 a),
            (processImgs (fun _ => ImgResp.fail) "output" "images" url7 [] []).newSrcs⟩
              : RenderedElement)),
          pageTitle doc7.title)
    ∧ pageBlock (pageTitle doc7.title) (urlToString url7)
        ((fun _ => "md") (⟨([] : List Url).map (fun a => urljoin url7 a),
          (processImgs (fun _ => ImgResp.fail) "output" "images" url7 [] []).newSrcs⟩
            : RenderedElement)) ≠ "" :=
  ⟨(scrape_c7 (fun _ => "md") (fun _ => ImgResp.fail) "output" "images" url7 doc7 []
      ⟨[], []⟩ rfl rfl).1,
   (scrape_c7 (fun _ => "md") (fun _ => ImgResp.fail) "output" "images" url7 doc7 []
      ⟨[], []⟩ rfl rfl).2.1,
   (scrape_c7 (fun _ => "md") (fun _ => ImgResp.fail) "output" "images" url7 doc7 []
      ⟨[], []⟩ rfl rfl).2.2 _ _
     ((scrape_c7 (fun _ => "md") (fun _ => ImgResp.fail) "output" "images" url7 doc7 []
        ⟨[], []⟩ rfl rfl).2.1)⟩

/-- The slug recipe exactly as claim C8 words it: lowercase, strip all
characters that are not word characters, whitespace, or hyphens, and turn
spaces into hyphens -- with no trimming of edge whitespace. -/
def slugClaimRecipe (t : String) : String :=
  (((pyLower t).toList.filter slugKeep).map (fun c => if c = ' ' then '-' else c)).asString

/-- The slug pipeline as the amended claim words it: lowercase, keep only
word characters, whitespace and hyphens, trim leading and trailing
whitespace, then replace each space with a hyphen. -/
def slugAmendedSpec (t : String) : String :=
  ((pyStrip ((t.toList.map Char.toLower).filter slugKeep).asString).toList.map
    (fun c => if c = ' ' then '-' else c)).asString

/-- C8 counterexample: the code strips edge whitespace before replacing
spaces, so a title with a trailing space slugs to "my-page" while the
claim's recipe (which has no trim step) yields "my-page-". -/
theorem scrape_c8_counterexample :
    slug "My Page " = "my-page"
    ∧ slugClaimRecipe "My Page " = "my-page-"
    ∧ slug "My Page " ≠ slugClaimRecipe "My Page " := by
  decide

/-- C8 (amended): the anchor slug is computed by lowercasing the title,
removing all characters that are not word characters, whitespace or hyphens,
trimming leading and trailing whitespace, and replacing each space with a
hyphen; duplicate titles produce identical table-of-contents entries with no
collision detection or disambiguation. -/
theorem scrape_c8 :
    (∀ t : String, slug t = slugAmendedSpec t)
    ∧ (∀ (t : String) (n : Nat),
        tocLines (List.replicate n t)
          = "# Table of Contents\n" :: List.replicate n (tocEntry t))
    ∧ slug "Hello, World!" = "hello-world" := by
  refine ⟨fun t => rfl, fun t n => ?_, by decide⟩
  simp [tocLines, List.map_replicate]

/-- An href as it appears in a page: the relative reference "x". -/
def hrefX : Url := ⟨"", "", "x", "", ""⟩

/-- A fetched page whose content region and document both hold the single
relative href "x". -/
def docHref : PageDoc := ⟨some ⟨[hrefX], []⟩, some ⟨[hrefX], []⟩, some "T", [hrefX]⟩

/-- A run configuration whose page fetch always succeeds with `docHref`. -/
def envB : Env := { envA with fetch := fun _ => FetchOutcome.resp 200 docHref }

/-- C10 (confirmed): during link discovery the href of a processed page is
resolved against the configured root URL -- the enqueued URL is the
canonicalized root-relative resolution, whatever page it appeared on --
while inside the content region hrefs are made absolute against the owning
page's URL. -/
theorem scrape_c10 :
    (∀ (E : Env) (s : CrawlState) (url : Url) (rest : List Url) (status : Nat)
        (doc : PageDoc) (href : Url),
      s.queue = url :: rest → base_url_only url ∉ s.visited →
      E.fetch url = .resp status doc → raisesForStatus status = false →
      doc.docAnchors = [href] →
      is_internal_link E.root (base_url_only (urljoin E.root href)) = true →
      base_url_only (urljoin E.root href) ∉ base_url_only url :: s.visited →
      base_url_only (urljoin E.root href) ∉ rest →
      (step E s).queue = rest ++ [base_url_only (urljoin E.root href)])
    ∧ (∀ (htmlToMd : RenderedElement → String) (imgFetch : String → ImgResp)
        (od idir : String) (url : Url) (doc : PageDoc) (fs : List String) (el : Element),
        doc.content = some el →
        (get_markdown_content htmlToMd imgFetch od idir url doc fs).renderedAnchors
          = el.anchors.map (fun a => urljoin url a)) := by
  constructor
  · intro E s url rest status doc href hq hv hf hr ha hint hnv hnr
    obtain ⟨q, v, b, t, f, tr⟩ := s
    simp only at hq hv hnv
    subst hq
    simp [step, hv, hf, hr, ha, enqueueLinks, hint, hnr]
    refine ⟨fun hh => hnv ?_, fun hh => hnv (List.mem_cons_of_mem _ hh)⟩
    simp [hh]
  · intro htmlToMd imgFetch od idir url doc fs el h
    simp [get_markdown_content, h, Option.orElse]

/-- C10 witness: processing the page /sub/page whose only href is the
relative reference "x" enqueues the root-relative /x (not the page-relative
/sub/x), while the content rewrite resolves the same href against the page
URL; the two resolutions differ. -/
theorem scrape_c10_witness :
    (step envB ⟨[⟨"https", "h", "/sub/page", "", ""⟩], [], [], [], [], []⟩).queue
      = [] ++ [base_url_only (urljoin envB.root hrefX)]
    ∧ (get_markdown_content (fun _ => "") (fun _ => ImgResp.fail) "output" "images"
        ⟨"https", "h", "/sub/page", "", ""⟩ docHref []).renderedAnchors
      = [hrefX].map (fun a => urljoin ⟨"https", "h", "/sub/page", "", ""⟩ a)
    ∧ urljoin envB.root hrefX ≠ urljoin ⟨"https", "h", "/sub/page", "", ""⟩ hrefX :=
  ⟨scrape_c10.1 envB ⟨[⟨"https", "h", "/sub/page", "", ""⟩], [], [], [], [], []⟩
      ⟨"https", "h", "/sub/page", "", ""⟩ [] 200 docHref hrefX rfl (by decide) rfl
      (by decide) rfl (by decide) (by decide) (by decide),
   scrape_c10.2 (fun _ => "") (fun _ => ImgResp.fail) "output" "images"
      ⟨"https", "h", "/sub/page", "", ""⟩ docHref [] ⟨[hrefX], []⟩ rfl,
   by decide⟩

/-- C9 witness: the amended theorem applied at concrete inputs. -/
theorem scrape_c9_witness :
    base_url_only ⟨"https", "h", "/p", "q=1", "f"⟩ = ⟨"https", "h", "/p", "", ""⟩
    ∧ base_url_only ⟨"https", "h", "", "q", "f"⟩ = ⟨"https", "h", "", "q", "f"⟩
    ∧ ((⟨"https", "h", "/x", "", ""⟩ : Url) ∈ ([] : List Url)
        ∨ ∃ href ∈ [(⟨"", "", "/x", "", "f"⟩ : Url)],
            (⟨"https", "h", "/x", "", ""⟩ : Url)
              = base_url_only (urljoin ⟨"https", "h", "/", "", ""⟩ href)) :=
  ⟨scrape_c9.1 _ (by decide),
   scrape_c9.2.2.1 _ (by decide),
   scrape_c9.2.2.2 ⟨"https", "h", "/", "", ""⟩ [] [] [⟨"", "", "/x", "", "f"⟩] _ (by decide)⟩

end ScrapeDocs

namespace ScrapeDocs

set_option maxRecDepth 4000 in
/-- Validation of the MD5 embedding against the RFC 1321 test vectors. -/
theorem md5hex_vectors :
    md5hex "" = "d41d8cd98f00b204e9800998ecf8427e"
    ∧ md5hex "abc" = "900150983cd24fb0d6963f7d28e17f72" := by
  decide

end ScrapeDocs
